import Mathlib

/-!
Shallow embedding of the metering core of syslog-ng:

* `src/lib/filter/filter-throttle.c` — keyed token-bucket rate limiter
  (structures `ThrottleRateLimit` and `FilterThrottle`, operations
  `throttle_ratelimit_add_new_tokens`, `throttle_ratelimit_try_consume_tokens`,
  `throttle_ratelimit_process_new_logs`, `filter_throttle_eval`);
* `src/lib/stats.c` — stats counter cluster expiry and pruning
  (`stats_counter_is_expired`, `stats_prune_counter`,
  `stats_publish_and_prune_counters`, `stats_timer_reinit`,
  `stats_check_level`).

Modelling conventions: C `gint`, `glong` and `time_t` values are modelled as
unbounded `Int` (overflow is not at issue in the verified properties);
C integer division truncates toward zero, which is `Int.tdiv`; a `GTimeVal`
is modelled as an absolute instant in microseconds. Mutation through a
pointer is modelled as explicit state passing; each C function that mutates
a struct becomes a Lean function from the old struct value to the new one.
-/

/-- Model of `struct _ThrottleRateLimit` from filter-throttle.c: `tokens` and
`rate` are C `gint`, `last_check` is a `GTimeVal` modelled as an instant in
microseconds. The mutex is concurrency plumbing and has no sequential
content. -/
structure ThrottleRateLimit where
  tokens : Int
  rate : Int
  last_check : Int
  deriving Repr, DecidableEq

/-- Model of `throttle_ratelimit_new`: a fresh bucket starts with
`tokens = rate` and `last_check = now`. -/
def throttle_ratelimit_new (rate now : Int) : ThrottleRateLimit :=
  { tokens := rate, rate := rate, last_check := now }

/-- Model of `throttle_ratelimit_add_new_tokens`: elapsed microseconds since
`last_check` are converted to `(usec * rate) / G_USEC_PER_SEC` new tokens with
C truncating division; when that count is nonzero, tokens are topped up to at
most `rate` and `last_check` is advanced to `now`; when it is zero nothing
changes. -/
def throttle_ratelimit_add_new_tokens (self : ThrottleRateLimit) (now : Int) :
    ThrottleRateLimit :=
  let usec_since_last_fill := now - self.last_check
  let num_new_tokens := Int.tdiv (usec_since_last_fill * self.rate) 1000000
  if num_new_tokens ≠ 0 then
    { self with tokens := min self.rate (self.tokens + num_new_tokens),
                last_check := now }
  else
    self

/-- Model of `throttle_ratelimit_try_consume_tokens`: returns the
`within_ratelimit` verdict together with the updated bucket. -/
def throttle_ratelimit_try_consume_tokens (self : ThrottleRateLimit)
    (num_tokens : Int) : Bool × ThrottleRateLimit :=
  if self.tokens ≥ num_tokens then
    (true, { self with tokens := self.tokens - num_tokens })
  else
    (false, self)

/-- Model of `throttle_ratelimit_process_new_logs`: refill, then try to
consume. -/
def throttle_ratelimit_process_new_logs (self : ThrottleRateLimit)
    (now num_new_logs : Int) : Bool × ThrottleRateLimit :=
  throttle_ratelimit_try_consume_tokens
    (throttle_ratelimit_add_new_tokens self now) num_new_logs

/-- An abstract operation on one token bucket: a refill observed at instant
`now`, or a consumption attempt of `n` tokens. -/
inductive ThrottleOp where
  | refill (now : Int)
  | consume (n : Int)
  deriving Repr, DecidableEq

/-- Apply one operation to a bucket (the consume verdict is discarded; only
the state matters for the invariant). -/
def applyThrottleOp (b : ThrottleRateLimit) : ThrottleOp → ThrottleRateLimit
  | .refill now => throttle_ratelimit_add_new_tokens b now
  | .consume n => (throttle_ratelimit_try_consume_tokens b n).2

/-- Apply a sequence of operations from left to right. -/
def applyThrottleOps (b : ThrottleRateLimit) (ops : List ThrottleOp) :
    ThrottleRateLimit :=
  ops.foldl applyThrottleOp b

/-- An operation is valid for the bucket's current state when a refill's
observation instant is not in the past of `last_check` (the clock does not go
backwards) and a consumption request is for a nonnegative batch size, as is
every actual call (`num_new_logs` is the length of a message batch). -/
def validThrottleOp (b : ThrottleRateLimit) : ThrottleOp → Bool
  | .refill now => b.last_check ≤ now
  | .consume n => 0 ≤ n

/-- A trace is valid when every operation is valid for the state it is
applied to. -/
def validThrottleTrace (b : ThrottleRateLimit) : List ThrottleOp → Bool
  | [] => true
  | op :: ops => validThrottleOp b op && validThrottleTrace (applyThrottleOp b op) ops

/-- The token-bucket invariant: the rate is positive and the token count lies
between 0 and the capacity (the `rate` field). -/
def throttleInv (b : ThrottleRateLimit) : Prop :=
  0 < b.rate ∧ 0 ≤ b.tokens ∧ b.tokens ≤ b.rate

theorem add_new_tokens_preserves_inv (b : ThrottleRateLimit) (now : Int)
    (hinv : throttleInv b) (hnow : b.last_check ≤ now) :
    throttleInv (throttle_ratelimit_add_new_tokens b now) := by
  obtain ⟨hr, h0, hc⟩ := hinv
  unfold throttle_ratelimit_add_new_tokens
  simp only
  split
  case isTrue hne =>
    have hnn : 0 ≤ Int.tdiv ((now - b.last_check) * b.rate) 1000000 := by
      apply Int.tdiv_nonneg
      · exact mul_nonneg (by omega) (by omega)
      · norm_num
    refine ⟨hr, ?_, ?_⟩
    · simp only [le_min_iff]
      constructor
      · omega
      · omega
    · exact min_le_left _ _
  case isFalse hne =>
    exact ⟨hr, h0, hc⟩

theorem try_consume_preserves_inv (b : ThrottleRateLimit) (n : Int)
    (hinv : throttleInv b) (hn : 0 ≤ n) :
    throttleInv (throttle_ratelimit_try_consume_tokens b n).2 := by
  obtain ⟨hr, h0, hc⟩ := hinv
  unfold throttle_ratelimit_try_consume_tokens
  split
  case isTrue h =>
    exact ⟨hr, by dsimp only; omega, by dsimp only; omega⟩
  case isFalse h =>
    exact ⟨hr, h0, hc⟩

theorem applyThrottleOps_preserves_inv (ops : List ThrottleOp) :
    ∀ b : ThrottleRateLimit, throttleInv b →
      validThrottleTrace b ops = true → throttleInv (applyThrottleOps b ops) := by
  induction ops with
  | nil =>
    intro b hinv _
    exact hinv
  | cons op ops ih =>
    intro b hinv hvalid
    simp only [validThrottleTrace, Bool.and_eq_true] at hvalid
    have hstep : throttleInv (applyThrottleOp b op) := by
      cases op with
      | refill now =>
        have : b.last_check ≤ now := by
          have := hvalid.1
          simpa [validThrottleOp, decide_eq_true_eq] using this
        exact add_new_tokens_preserves_inv b now hinv this
      | consume n =>
        have : (0 : Int) ≤ n := by
          have := hvalid.1
          simpa [validThrottleOp, decide_eq_true_eq] using this
        exact try_consume_preserves_inv b n hinv this
    exact ih (applyThrottleOp b op) hstep hvalid.2

/-- C1: a bucket created with positive rate satisfies `0 ≤ tokens ≤ capacity`
after every valid sequence of refill and try-consume operations (valid:
refill instants never precede the bucket's `last_check`, consume amounts are
nonnegative batch sizes). The capacity is the bucket's `rate` field. -/
theorem throttle_tokens_bounded (rate now : Int) (ops : List ThrottleOp)
    (hrate : 0 < rate)
    (hvalid : validThrottleTrace (throttle_ratelimit_new rate now) ops = true) :
    0 ≤ (applyThrottleOps (throttle_ratelimit_new rate now) ops).tokens ∧
      (applyThrottleOps (throttle_ratelimit_new rate now) ops).tokens ≤
        (applyThrottleOps (throttle_ratelimit_new rate now) ops).rate := by
  have hinv0 : throttleInv (throttle_ratelimit_new rate now) :=
    ⟨hrate, by simp only [throttle_ratelimit_new]; omega, le_refl _⟩
  have := applyThrottleOps_preserves_inv ops _ hinv0 hvalid
  exact ⟨this.2.1, this.2.2⟩

/-- Witness for C1: a concrete valid trace on a bucket of rate 5. -/
theorem throttle_tokens_bounded_witness :
    0 ≤ (applyThrottleOps (throttle_ratelimit_new 5 0)
          [ThrottleOp.consume 3, ThrottleOp.refill 400000,
           ThrottleOp.consume 2]).tokens ∧
      (applyThrottleOps (throttle_ratelimit_new 5 0)
          [ThrottleOp.consume 3, ThrottleOp.refill 400000,
           ThrottleOp.consume 2]).tokens ≤
        (applyThrottleOps (throttle_ratelimit_new 5 0)
          [ThrottleOp.consume 3, ThrottleOp.refill 400000,
           ThrottleOp.consume 2]).rate :=
  throttle_tokens_bounded 5 0
    [ThrottleOp.consume 3, ThrottleOp.refill 400000, ThrottleOp.consume 2]
    (by decide) (by decide)

/-- C2: `try_consume(n)` succeeds exactly when `tokens ≥ n`; on success it
decreases `tokens` by exactly `n` and leaves `rate` (the capacity) and
`last_check` untouched; on failure the whole bucket state is unchanged. -/
theorem try_consume_spec (b : ThrottleRateLimit) (n : Int) :
    ((throttle_ratelimit_try_consume_tokens b n).1 = true ↔ n ≤ b.tokens) ∧
    ((throttle_ratelimit_try_consume_tokens b n).1 = true →
      (throttle_ratelimit_try_consume_tokens b n).2.tokens = b.tokens - n ∧
      (throttle_ratelimit_try_consume_tokens b n).2.rate = b.rate ∧
      (throttle_ratelimit_try_consume_tokens b n).2.last_check = b.last_check) ∧
    ((throttle_ratelimit_try_consume_tokens b n).1 = false →
      (throttle_ratelimit_try_consume_tokens b n).2 = b) := by
  unfold throttle_ratelimit_try_consume_tokens
  split
  case isTrue h =>
    refine ⟨by simpa using h, fun _ => ⟨rfl, rfl, rfl⟩, fun hfalse => by simp at hfalse⟩
  case isFalse h =>
    refine ⟨by simpa using h, fun htrue => by simp at htrue, fun _ => rfl⟩

/-- Witness for C2 at the concrete bucket of rate 5 and request 3. -/
theorem try_consume_spec_witness :
    ((throttle_ratelimit_try_consume_tokens (throttle_ratelimit_new 5 0) 3).1 = true ↔
        (3 : Int) ≤ (throttle_ratelimit_new 5 0).tokens) ∧
    ((throttle_ratelimit_try_consume_tokens (throttle_ratelimit_new 5 0) 3).1 = true →
      (throttle_ratelimit_try_consume_tokens (throttle_ratelimit_new 5 0) 3).2.tokens =
          (throttle_ratelimit_new 5 0).tokens - 3 ∧
      (throttle_ratelimit_try_consume_tokens (throttle_ratelimit_new 5 0) 3).2.rate =
          (throttle_ratelimit_new 5 0).rate ∧
      (throttle_ratelimit_try_consume_tokens (throttle_ratelimit_new 5 0) 3).2.last_check =
          (throttle_ratelimit_new 5 0).last_check) ∧
    ((throttle_ratelimit_try_consume_tokens (throttle_ratelimit_new 5 0) 3).1 = false →
      (throttle_ratelimit_try_consume_tokens (throttle_ratelimit_new 5 0) 3).2 =
          throttle_ratelimit_new 5 0) :=
  try_consume_spec (throttle_ratelimit_new 5 0) 3

/-- C3: with a positive rate and a clock that moved forward by
`T = now - last_check` microseconds, the number of new tokens is the floor of
`T * rate / 1000000` (stated through truncating division on a nonnegative
numerator, which agrees with natural-number floor division); when that count
is positive the refill tops tokens up to at most the capacity and stamps
`last_check := now`, and when it is zero the bucket is completely unchanged.
Moreover, for any positive rate R dividing 1000000, a refill of an empty
bucket exactly `1000000 / R` microseconds after its `last_check` yields
exactly one token. -/
theorem add_new_tokens_spec (b : ThrottleRateLimit) (now : Int)
    (hnow : b.last_check ≤ now) (hrate : 0 < b.rate) :
    (Int.tdiv ((now - b.last_check) * b.rate) 1000000 =
        (((now - b.last_check) * b.rate).toNat / 1000000 : Nat)) ∧
    (0 < Int.tdiv ((now - b.last_check) * b.rate) 1000000 →
      throttle_ratelimit_add_new_tokens b now =
        { b with
            tokens := min b.rate
              (b.tokens + Int.tdiv ((now - b.last_check) * b.rate) 1000000),
            last_check := now }) ∧
    (Int.tdiv ((now - b.last_check) * b.rate) 1000000 = 0 →
      throttle_ratelimit_add_new_tokens b now = b) ∧
    (∀ R t0 : Int, 0 < R → R ∣ 1000000 →
      (throttle_ratelimit_add_new_tokens
          { tokens := 0, rate := R, last_check := t0 }
          (t0 + Int.tdiv 1000000 R)).tokens = 1) := by
  refine ⟨?_, ?_, ?_, ?_⟩
  · have hx : 0 ≤ (now - b.last_check) * b.rate :=
      mul_nonneg (by omega) (by omega)
    obtain ⟨m, hm⟩ : ∃ m : ℕ, (now - b.last_check) * b.rate = Int.ofNat m :=
      ⟨((now - b.last_check) * b.rate).toNat, (Int.toNat_of_nonneg hx).symm⟩
    rw [hm]
    rfl
  · intro hpos
    unfold throttle_ratelimit_add_new_tokens
    simp only
    rw [if_pos (by omega)]
  · intro hzero
    unfold throttle_ratelimit_add_new_tokens
    simp only
    rw [if_neg (by omega)]
  · intro R t0 hR hdvd
    have hq : Int.tdiv 1000000 R * R = 1000000 := Int.tdiv_mul_cancel hdvd
    unfold throttle_ratelimit_add_new_tokens
    simp only
    have helapsed : t0 + Int.tdiv 1000000 R - t0 = Int.tdiv 1000000 R := by ring
    rw [helapsed, hq]
    norm_num
    omega

/-- Witness for C3 at the concrete bucket of rate 8: elapsed 125000 µs
(= 1000000/8) on an empty bucket yields 1 token; the conjuncts are evaluated
at rate 8, tokens 2, elapsed 250000 µs. -/
theorem add_new_tokens_spec_witness :
    (Int.tdiv ((250000 - 0) * (8 : Int)) 1000000 =
        ((((250000 : Int) - 0) * 8).toNat / 1000000 : Nat)) ∧
    (0 < Int.tdiv (((250000 : Int) - 0) * 8) 1000000 →
      throttle_ratelimit_add_new_tokens
          { tokens := 2, rate := 8, last_check := 0 } 250000 =
        { tokens := min 8 (2 + Int.tdiv (((250000 : Int) - 0) * 8) 1000000),
          rate := 8, last_check := 250000 }) ∧
    (Int.tdiv (((250000 : Int) - 0) * 8) 1000000 = 0 →
      throttle_ratelimit_add_new_tokens
          { tokens := 2, rate := 8, last_check := 0 } 250000 =
        { tokens := 2, rate := 8, last_check := 0 }) ∧
    (∀ R t0 : Int, 0 < R → R ∣ 1000000 →
      (throttle_ratelimit_add_new_tokens
          { tokens := 0, rate := R, last_check := t0 }
          (t0 + Int.tdiv 1000000 R)).tokens = 1) :=
  add_new_tokens_spec { tokens := 2, rate := 8, last_check := 0 } 250000
    (by decide) (by decide)

/-- Counter type indices from stats.h, in the order of `stats_get_type_name`:
dropped, processed, stored, suppressed, stamp. -/
def SC_TYPE_STAMP : Nat := 4

/-- Model of `StatsCluster` as used by the pruning logic: the `dynamic` flag,
the reference count (`ref_cnt`, a C `gint`), the liveness bitmask over
counter types, and the counter values indexed by counter type (`value` is a
64-bit integer; the `stamp` counter holds a Unix time). -/
structure StatsCluster where
  dynamic : Bool
  ref_cnt : Int
  live_mask : Nat
  counters : Nat → Int

/-- Model of `StatsOptions` from stats.h: verbosity level, publish frequency
and dynamic-cluster lifetime, all C `gint`. -/
structure StatsOptions where
  level : Int
  log_freq : Int
  lifetime : Int
  deriving Repr, DecidableEq

/-- Model of `stats_counter_is_expired`: static clusters never expire,
referenced clusters never expire, clusters without a live `stamp` counter
never expire, and otherwise a cluster is expired exactly when its stamp is at
most `now - lifetime` (`stats_options->lifetime` is passed explicitly). -/
def stats_counter_is_expired (sc : StatsCluster) (now lifetime : Int) : Bool :=
  if !sc.dynamic then false
  else if sc.ref_cnt > 0 then false
  else if sc.live_mask &&& (1 <<< SC_TYPE_STAMP) == 0 then false
  else decide (sc.counters SC_TYPE_STAMP ≤ now - lifetime)

/-- Model of `StatsTimerState` as touched by the pruning pass: the oldest
dropped stamp seen so far (0 = none yet) and the number of dropped
clusters. -/
structure StatsTimerState where
  oldest_counter : Int
  dropped_counters : Int
  deriving Repr, DecidableEq

/-- Model of `stats_prune_counter`: evaluates expiry and, when expired,
updates the running aggregates exactly as the C code does (`oldest_counter`
is replaced when it is still 0 or larger than this cluster's stamp), and
returns the expiry verdict that tells the registry to remove the cluster. -/
def stats_prune_counter (sc : StatsCluster) (now lifetime : Int)
    (st : StatsTimerState) : Bool × StatsTimerState :=
  let expired := stats_counter_is_expired sc now lifetime
  if expired then
    let tstamp := sc.counters SC_TYPE_STAMP
    let oldest :=
      if st.oldest_counter == 0 || st.oldest_counter > tstamp then tstamp
      else st.oldest_counter
    (true, { oldest_counter := oldest,
             dropped_counters := st.dropped_counters + 1 })
  else
    (false, st)

/-- Model of the aggregate-collecting part of
`stats_publish_and_prune_counters`: starting from zeroed aggregates, visit
every registered cluster once and fold `stats_prune_counter` over them (the
registry's iteration order is the list order; formatting and event emission
carry no counter state). -/
def stats_publish_and_prune_counters (clusters : List StatsCluster)
    (now lifetime : Int) : StatsTimerState :=
  clusters.foldl (fun st sc => (stats_prune_counter sc now lifetime st).2)
    { oldest_counter := 0, dropped_counters := 0 }

/-- The stamps of the clusters a pruning pass drops, in visit order. -/
def droppedStamps (clusters : List StatsCluster) (now lifetime : Int) :
    List Int :=
  (clusters.filter (fun sc => stats_counter_is_expired sc now lifetime)).map
    (fun sc => sc.counters SC_TYPE_STAMP)

/-- The update rule the C code applies to `oldest_counter` per dropped
cluster. -/
def oldestUpd (o t : Int) : Int :=
  if o == 0 || o > t then t else o

/-- Minimum of a list of stamps, 0 when empty (the reported value when
nothing is dropped). -/
def stampListMin : List Int → Int
  | [] => 0
  | t :: ts => ts.foldl min t

/-- C4: the expiry predicate returns false for static clusters, false for
referenced clusters, false when the stamp type is absent from the live mask,
and otherwise returns true exactly when the stamp is at most
`now - lifetime`; the boundary case `stamp = now - lifetime` counts as
expired. -/
theorem stats_counter_is_expired_spec (sc : StatsCluster) (now lifetime : Int) :
    (sc.dynamic = false → stats_counter_is_expired sc now lifetime = false) ∧
    (sc.ref_cnt > 0 → stats_counter_is_expired sc now lifetime = false) ∧
    (sc.live_mask &&& (1 <<< SC_TYPE_STAMP) = 0 →
      stats_counter_is_expired sc now lifetime = false) ∧
    (sc.dynamic = true → sc.ref_cnt ≤ 0 →
      sc.live_mask &&& (1 <<< SC_TYPE_STAMP) ≠ 0 →
      (stats_counter_is_expired sc now lifetime = true ↔
        sc.counters SC_TYPE_STAMP ≤ now - lifetime)) := by
  unfold stats_counter_is_expired
  refine ⟨?_, ?_, ?_, ?_⟩
  · intro h
    simp [h]
  · intro h
    rcases hd : sc.dynamic with _ | _
    · simp
    · simp [h]
  · intro h
    rcases hd : sc.dynamic with _ | _
    · simp
    · by_cases hr : sc.ref_cnt > 0
      · simp [hr]
      · simp [hr, h]
  · intro hd hr hm
    rw [if_neg (by simp [hd]), if_neg (by omega), if_neg (by simpa using hm)]
    simp

/-- Witness for C4: a dynamic, unreferenced cluster with a live stamp exactly
at the lifetime boundary. -/
theorem stats_counter_is_expired_spec_witness :
    let sc : StatsCluster :=
      { dynamic := true, ref_cnt := 0, live_mask := 1 <<< SC_TYPE_STAMP,
        counters := fun _ => 100 }
    (sc.dynamic = false → stats_counter_is_expired sc 700 600 = false) ∧
    (sc.ref_cnt > 0 → stats_counter_is_expired sc 700 600 = false) ∧
    (sc.live_mask &&& (1 <<< SC_TYPE_STAMP) = 0 →
      stats_counter_is_expired sc 700 600 = false) ∧
    (sc.dynamic = true → sc.ref_cnt ≤ 0 →
      sc.live_mask &&& (1 <<< SC_TYPE_STAMP) ≠ 0 →
      (stats_counter_is_expired sc 700 600 = true ↔
        sc.counters SC_TYPE_STAMP ≤ 700 - 600)) :=
  stats_counter_is_expired_spec
    { dynamic := true, ref_cnt := 0, live_mask := 1 <<< SC_TYPE_STAMP,
      counters := fun _ => 100 } 700 600

theorem prune_fold_spec (clusters : List StatsCluster) (now lifetime : Int) :
    ∀ st0 : StatsTimerState,
      (clusters.foldl (fun st sc => (stats_prune_counter sc now lifetime st).2)
          st0).dropped_counters =
        st0.dropped_counters + (droppedStamps clusters now lifetime).length ∧
      (clusters.foldl (fun st sc => (stats_prune_counter sc now lifetime st).2)
          st0).oldest_counter =
        (droppedStamps clusters now lifetime).foldl oldestUpd st0.oldest_counter := by
  induction clusters with
  | nil =>
    intro st0
    simp [droppedStamps]
  | cons sc cls ih =>
    intro st0
    by_cases hexp : stats_counter_is_expired sc now lifetime = true
    · have hds : droppedStamps (sc :: cls) now lifetime =
          sc.counters SC_TYPE_STAMP :: droppedStamps cls now lifetime := by
        simp [droppedStamps, List.filter_cons, hexp]
      have hstep : (stats_prune_counter sc now lifetime st0).2 =
          { oldest_counter := oldestUpd st0.oldest_counter (sc.counters SC_TYPE_STAMP),
            dropped_counters := st0.dropped_counters + 1 } := by
        simp [stats_prune_counter, hexp, oldestUpd]
      rw [List.foldl_cons, hstep, hds]
      have := ih { oldest_counter := oldestUpd st0.oldest_counter (sc.counters SC_TYPE_STAMP),
                   dropped_counters := st0.dropped_counters + 1 }
      refine ⟨?_, ?_⟩
      · rw [this.1]
        simp
        omega
      · rw [this.2]
        simp
    · have hexp' : stats_counter_is_expired sc now lifetime = false := by
        simpa using hexp
      have hds : droppedStamps (sc :: cls) now lifetime =
          droppedStamps cls now lifetime := by
        simp [droppedStamps, List.filter_cons, hexp']
      have hstep : (stats_prune_counter sc now lifetime st0).2 = st0 := by
        simp [stats_prune_counter, hexp']
      rw [List.foldl_cons, hstep, hds]
      exact ih st0

theorem foldl_oldestUpd_eq_foldl_min (ts : List Int) :
    ∀ m : Int, m ≠ 0 → (∀ t ∈ ts, t ≠ 0) →
      ts.foldl oldestUpd m = ts.foldl min m := by
  induction ts with
  | nil =>
    intro m _ _
    rfl
  | cons t ts ih =>
    intro m hm hts
    have ht : t ≠ 0 := hts t (by simp)
    have hupd : oldestUpd m t = min m t := by
      unfold oldestUpd
      rcases le_or_lt m t with h | h
      · rw [if_neg (by simp [hm]; omega), min_eq_left h]
      · rw [if_pos (by simp; omega), min_eq_right (by omega)]
    rw [List.foldl_cons, List.foldl_cons, hupd]
    apply ih
    · rcases min_cases m t with ⟨he, _⟩ | ⟨he, _⟩ <;> omega
    · intro x hx
      exact hts x (by simp [hx])

theorem foldl_oldestUpd_zero (ts : List Int) (hts : ∀ t ∈ ts, t ≠ 0) :
    ts.foldl oldestUpd 0 = stampListMin ts := by
  cases ts with
  | nil => rfl
  | cons t ts =>
    have ht : t ≠ 0 := hts t (by simp)
    have h0 : oldestUpd 0 t = t := by
      unfold oldestUpd
      rw [if_pos (by simp)]
    rw [List.foldl_cons, h0, stampListMin]
    exact foldl_oldestUpd_eq_foldl_min ts t ht (fun x hx => hts x (by simp [hx]))

/-- C5 counterexample: with two expired clusters whose stamps are 0 and 5,
the code reports `oldest_counter = 5`, while the minimum stamp among the
dropped clusters is 0 — the claim that the reported value always equals the
minimum fails because the code's fold treats the value 0 as "not yet set". -/
theorem publish_and_prune_min_counterexample :
    (stats_counter_is_expired
        { dynamic := true, ref_cnt := 0, live_mask := 1 <<< SC_TYPE_STAMP,
          counters := fun _ => 0 } 700 600 = true) ∧
    (stats_counter_is_expired
        { dynamic := true, ref_cnt := 0, live_mask := 1 <<< SC_TYPE_STAMP,
          counters := fun _ => 5 } 700 600 = true) ∧
    stampListMin
        (droppedStamps
          [{ dynamic := true, ref_cnt := 0, live_mask := 1 <<< SC_TYPE_STAMP,
             counters := fun _ => 0 },
           { dynamic := true, ref_cnt := 0, live_mask := 1 <<< SC_TYPE_STAMP,
             counters := fun _ => 5 }] 700 600) = 0 ∧
    (stats_publish_and_prune_counters
        [{ dynamic := true, ref_cnt := 0, live_mask := 1 <<< SC_TYPE_STAMP,
           counters := fun _ => 0 },
         { dynamic := true, ref_cnt := 0, live_mask := 1 <<< SC_TYPE_STAMP,
           counters := fun _ => 5 }] 700 600).oldest_counter = 5 := by
  refine ⟨rfl, rfl, rfl, rfl⟩

/-- C5 (amended): over any run of the maintenance pass, `dropped_counters`
equals the number of visited clusters that `stats_counter_is_expired` holds
of; and provided every dropped cluster's stamp is nonzero,
`oldest_counter` equals the minimum stamp among the dropped clusters
(0 when no cluster is dropped). In particular a single expired dynamic
cluster with `ref_cnt = 0` and stamp `now - lifetime - 1` yields
`dropped_counters = 1`. -/
theorem publish_and_prune_spec (clusters : List StatsCluster) (now lifetime : Int)
    (hnz : ∀ t ∈ droppedStamps clusters now lifetime, t ≠ 0) :
    (stats_publish_and_prune_counters clusters now lifetime).dropped_counters =
      ((clusters.filter
          (fun sc => stats_counter_is_expired sc now lifetime)).length : Int) ∧
    (stats_publish_and_prune_counters clusters now lifetime).oldest_counter =
      stampListMin (droppedStamps clusters now lifetime) ∧
    (stats_publish_and_prune_counters
        [{ dynamic := true, ref_cnt := 0, live_mask := 1 <<< SC_TYPE_STAMP,
           counters := fun _ => now - lifetime - 1 }] now
        lifetime).dropped_counters = 1 := by
  have h := prune_fold_spec clusters now lifetime
    { oldest_counter := 0, dropped_counters := 0 }
  refine ⟨?_, ?_, ?_⟩
  · rw [stats_publish_and_prune_counters, h.1]
    have hlen : (droppedStamps clusters now lifetime).length =
        (clusters.filter
          (fun sc => stats_counter_is_expired sc now lifetime)).length := by
      unfold droppedStamps
      rw [List.length_map]
    rw [hlen]
    dsimp only
    omega
  · rw [stats_publish_and_prune_counters, h.2]
    exact foldl_oldestUpd_zero _ hnz
  · have hone : stats_counter_is_expired
        { dynamic := true, ref_cnt := 0, live_mask := 1 <<< SC_TYPE_STAMP,
          counters := fun _ => now - lifetime - 1 } now lifetime = true := by
      simp [stats_counter_is_expired, SC_TYPE_STAMP]
    simp [stats_publish_and_prune_counters, stats_prune_counter, hone]

/-- Witness for C5 (amended) at a concrete two-cluster registry with nonzero
stamps (99 expired, 999 not expired) at `now = 700`, `lifetime = 600`. -/
theorem publish_and_prune_spec_witness :
    (stats_publish_and_prune_counters
        [{ dynamic := true, ref_cnt := 0, live_mask := 1 <<< SC_TYPE_STAMP,
           counters := fun _ => 99 },
         { dynamic := true, ref_cnt := 0, live_mask := 1 <<< SC_TYPE_STAMP,
           counters := fun _ => 999 }] 700 600).dropped_counters =
      (([{ dynamic := true, ref_cnt := 0, live_mask := 1 <<< SC_TYPE_STAMP,
           counters := fun _ => (99 : Int) },
         { dynamic := true, ref_cnt := 0, live_mask := 1 <<< SC_TYPE_STAMP,
           counters := fun _ => 999 }].filter
            (fun sc => stats_counter_is_expired sc 700 600)).length : Int) ∧
    (stats_publish_and_prune_counters
        [{ dynamic := true, ref_cnt := 0, live_mask := 1 <<< SC_TYPE_STAMP,
           counters := fun _ => 99 },
         { dynamic := true, ref_cnt := 0, live_mask := 1 <<< SC_TYPE_STAMP,
           counters := fun _ => 999 }] 700 600).oldest_counter =
      stampListMin
        (droppedStamps
          [{ dynamic := true, ref_cnt := 0, live_mask := 1 <<< SC_TYPE_STAMP,
             counters := fun _ => 99 },
           { dynamic := true, ref_cnt := 0, live_mask := 1 <<< SC_TYPE_STAMP,
             counters := fun _ => 999 }] 700 600) ∧
    (stats_publish_and_prune_counters
        [{ dynamic := true, ref_cnt := 0, live_mask := 1 <<< SC_TYPE_STAMP,
           counters := fun _ => (700 : Int) - 600 - 1 }] 700
        600).dropped_counters = 1 :=
  publish_and_prune_spec
    [{ dynamic := true, ref_cnt := 0, live_mask := 1 <<< SC_TYPE_STAMP,
       counters := fun _ => 99 },
     { dynamic := true, ref_cnt := 0, live_mask := 1 <<< SC_TYPE_STAMP,
       counters := fun _ => 999 }] 700 600
    (by decide)

/-- Iterated `throttle_ratelimit_process_new_logs`: the verdicts and final
bucket of `k` back-to-back process calls at the same instant with the same
batch size. -/
def processRepeat (b : ThrottleRateLimit) (now n : Int) :
    Nat → List Bool × ThrottleRateLimit
  | 0 => ([], b)
  | k + 1 =>
    let res := throttle_ratelimit_process_new_logs b now n
    let rest := processRepeat res.2 now n k
    (res.1 :: rest.1, rest.2)

/-- C6 counterexample: the claim quantifies over every starting state, but a
state whose token count exceeds its capacity (never produced by the code, yet
a state of the model) lets a request larger than the capacity succeed:
with `tokens = 10`, `rate = 5`, a request of 6 > 5 succeeds. -/
theorem process_over_capacity_counterexample :
    (6 : Int) > ({ tokens := 10, rate := 5, last_check := 0 } :
        ThrottleRateLimit).rate ∧
    (throttle_ratelimit_process_new_logs
        { tokens := 10, rate := 5, last_check := 0 } 0 6).1 = true := by
  exact ⟨by decide, by decide⟩

/-- C6 (amended): for every starting state satisfying the bucket invariant
`tokens ≤ capacity`, a request strictly larger than the capacity fails for
every elapsed time; and in the boundary scenario of rate 5 with five
back-to-back requests of 5 at the same instant, the first succeeds leaving 0
tokens and the remaining four fail. -/
theorem process_over_capacity_fails (b : ThrottleRateLimit) (now n : Int)
    (hb : b.tokens ≤ b.rate) (hn : b.rate < n) :
    (throttle_ratelimit_process_new_logs b now n).1 = false ∧
    (processRepeat (throttle_ratelimit_new 5 0) 0 5 5).1 =
      [true, false, false, false, false] ∧
    (throttle_ratelimit_process_new_logs
        (throttle_ratelimit_new 5 0) 0 5).2.tokens = 0 := by
  refine ⟨?_, by decide, by decide⟩
  have hrate : (throttle_ratelimit_add_new_tokens b now).rate = b.rate := by
    unfold throttle_ratelimit_add_new_tokens
    simp only
    split <;> rfl
  have htok : (throttle_ratelimit_add_new_tokens b now).tokens ≤ b.rate := by
    unfold throttle_ratelimit_add_new_tokens
    simp only
    split
    · exact min_le_left _ _
    · exact hb
  unfold throttle_ratelimit_process_new_logs throttle_ratelimit_try_consume_tokens
  rw [if_neg (by omega)]

/-- Witness for C6 (amended) at the in-invariant state `tokens = 3`,
`rate = 5` with the over-capacity request 7. -/
theorem process_over_capacity_fails_witness :
    (throttle_ratelimit_process_new_logs
        { tokens := 3, rate := 5, last_check := 0 } 0 7).1 = false ∧
    (processRepeat (throttle_ratelimit_new 5 0) 0 5 5).1 =
      [true, false, false, false, false] ∧
    (throttle_ratelimit_process_new_logs
        (throttle_ratelimit_new 5 0) 0 5).2.tokens = 0 :=
  process_over_capacity_fails { tokens := 3, rate := 5, last_check := 0 } 0 7
    (by decide) (by decide)

/-- Model of the effective-interval computation in `stats_timer_reinit`: the
configured `log_freq` when nonzero, otherwise 1 when `lifetime ≤ 1` and
`lifetime / 2` (C truncating division) otherwise. -/
def stats_timer_reinit_freq (options : StatsOptions) : Int :=
  let freq := options.log_freq
  if freq = 0 then
    if options.lifetime ≤ 1 then 1 else Int.tdiv options.lifetime 2
  else
    freq

/-- Stated from the spec's words, for comparison with the code: the effective
interval is `log_freq` when nonzero and `max 1 (lifetime / 2)` otherwise. -/
def spec_effective_interval (options : StatsOptions) : Int :=
  if options.log_freq ≠ 0 then options.log_freq
  else max 1 (Int.tdiv options.lifetime 2)

theorem tdiv_two_le_one {l : Int} (h : l ≤ 1) : Int.tdiv l 2 ≤ 1 := by
  rcases le_or_lt 0 l with h0 | h0
  · rw [Int.tdiv_eq_ediv h0 (by norm_num)]
    omega
  · have hflip : Int.tdiv l 2 = -Int.tdiv (-l) 2 := by
      rw [← Int.neg_tdiv, neg_neg]
    rw [hflip, Int.tdiv_eq_ediv (by omega) (by norm_num)]
    omega

theorem one_le_tdiv_two {l : Int} (h : 2 ≤ l) : 1 ≤ Int.tdiv l 2 := by
  rw [Int.tdiv_eq_ediv (by omega) (by norm_num)]
  omega

theorem code_interval_eq_max (l : Int) :
    (if l ≤ 1 then (1 : Int) else Int.tdiv l 2) = max 1 (Int.tdiv l 2) := by
  by_cases hl : l ≤ 1
  · rw [if_pos hl, max_eq_left (tdiv_two_le_one hl)]
  · rw [if_neg hl, max_eq_right (one_le_tdiv_two (show (2 : Int) ≤ l by omega))]

/-- C7: the code's effective timer interval — `log_freq` when nonzero, else
`lifetime <= 1 ? 1 : lifetime / 2` — equals the spec's
`log_freq` when nonzero, else `max 1 (lifetime / 2)`, for every option set;
and for `log_freq = 0`, `lifetime = 10` the interval is 5 seconds. -/
theorem stats_timer_freq_spec (options : StatsOptions) :
    stats_timer_reinit_freq options = spec_effective_interval options ∧
    stats_timer_reinit_freq { level := 0, log_freq := 0, lifetime := 10 } = 5 := by
  refine ⟨?_, by decide⟩
  unfold stats_timer_reinit_freq spec_effective_interval
  by_cases hf : options.log_freq = 0
  · simp [hf, code_interval_eq_max]
  · simp [hf]

/-- Witness for C7 at `log_freq = 7`, `lifetime = 10`. -/
theorem stats_timer_freq_spec_witness :
    stats_timer_reinit_freq { level := 1, log_freq := 7, lifetime := 10 } =
      spec_effective_interval { level := 1, log_freq := 7, lifetime := 10 } ∧
    stats_timer_reinit_freq { level := 0, log_freq := 0, lifetime := 10 } = 5 :=
  stats_timer_freq_spec { level := 1, log_freq := 7, lifetime := 10 }

/-- Model of `stats_check_level` with the global `stats_options` pointer made
explicit: before any options object is installed (the pointer is NULL) only
level 0 passes; once installed, a level passes exactly when the configured
`level` is at least it. -/
def stats_check_level (stats_options : Option StatsOptions) (level : Int) :
    Bool :=
  match stats_options with
  | some o => decide (o.level ≥ level)
  | none => level == 0

/-- C10: `stats_check_level(level)` is true exactly when `level = 0` while no
options are installed, and exactly when `level ≤ options.level` once some
options are installed. -/
theorem stats_check_level_spec (level : Int) :
    (stats_check_level none level = true ↔ level = 0) ∧
    (∀ o : StatsOptions,
      stats_check_level (some o) level = true ↔ level ≤ o.level) := by
  constructor
  · simp [stats_check_level]
  · intro o
    simp [stats_check_level, ge_iff_le]

/-- A log message, modelled for key extraction as a map from name-value
handles (`NVHandle`, where 0 is the invalid handle) to optional byte-string
values. -/
def LogMessage := Nat → Option String

/-- Model of `log_msg_get_value` as used by key derivation: a value that is
absent from the message degrades to the empty string. -/
def log_msg_get_value (msg : LogMessage) (handle : Nat) : String :=
  (msg handle).getD ""

/-- The key-derivation step of `filter_throttle_eval`: with a configured
(nonzero) `key_handle` the key is read from the last message of the batch
(the code indexes `msgs[num_msg - 1]`); with no key handle configured the
key is the literal empty string. -/
def filter_throttle_derive_key (key_handle : Nat) (msgs : List LogMessage) :
    String :=
  if key_handle ≠ 0 then
    log_msg_get_value (msgs.getLastD (fun _ => none)) key_handle
  else
    ""

/-- Model of `struct _FilterThrottle`: the configured key handle and rate,
and the `rate_limits` hash table modelled as a mapping from key strings to
optional buckets. -/
structure FilterThrottle where
  key_handle : Nat
  rate : Int
  rate_limits : String → Option ThrottleRateLimit

/-- Model of `filter_throttle_eval`: derive the key from the batch, look up
the bucket for it (creating one with the configured rate when absent, as the
lazy insert does), process the batch against that bucket, and store the
updated bucket back under the key. Returns the verdict and the updated
filter state. -/
def filter_throttle_eval (self : FilterThrottle) (msgs : List LogMessage)
    (now : Int) : Bool × FilterThrottle :=
  let key := filter_throttle_derive_key self.key_handle msgs
  let rl :=
    match self.rate_limits key with
    | some rl => rl
    | none => throttle_ratelimit_new self.rate now
  let res := throttle_ratelimit_process_new_logs rl now (msgs.length : Int)
  (res.1,
   { self with rate_limits := fun k =>
       if k = key then some res.2 else self.rate_limits k })

/-- C8: for a non-empty batch, the derived key is the key-field value of the
last record of the batch when a key field is configured; it is the empty
string when no key field is configured or when the field is absent from the
last record; and it depends only on the last record of the batch, never on
an earlier one. -/
theorem derive_key_spec (key_handle : Nat) (msgs : List LogMessage)
    (h : msgs ≠ []) :
    (key_handle ≠ 0 →
      filter_throttle_derive_key key_handle msgs =
        log_msg_get_value (msgs.getLast h) key_handle) ∧
    (key_handle = 0 → filter_throttle_derive_key key_handle msgs = "") ∧
    (key_handle ≠ 0 → (msgs.getLast h) key_handle = none →
      filter_throttle_derive_key key_handle msgs = "") ∧
    (∀ msgs' : List LogMessage, msgs'.getLast? = msgs.getLast? →
      filter_throttle_derive_key key_handle msgs' =
        filter_throttle_derive_key key_handle msgs) := by
  have hlastD : msgs.getLastD (fun _ => none) = msgs.getLast h := by
    rw [List.getLastD_eq_getLast?, List.getLast?_eq_getLast msgs h]
    rfl
  refine ⟨?_, ?_, ?_, ?_⟩
  · intro hk
    unfold filter_throttle_derive_key
    rw [if_pos hk, hlastD]
  · intro hk
    unfold filter_throttle_derive_key
    rw [if_neg (by simpa using hk)]
  · intro hk habsent
    unfold filter_throttle_derive_key
    rw [if_pos hk, hlastD]
    unfold log_msg_get_value
    rw [habsent]
    rfl
  · intro msgs' hlast
    unfold filter_throttle_derive_key
    rw [List.getLastD_eq_getLast?, List.getLastD_eq_getLast?, hlast]

/-- Witness for C8: a two-message batch whose messages carry the values
whiskey and tango under handle 1; the derived key is taken from the second
(last) message. -/
theorem derive_key_spec_witness :
    ((1 : Nat) ≠ 0 →
      filter_throttle_derive_key 1
          [fun h => if h = 1 then some "whiskey" else none,
           fun h => if h = 1 then some "tango" else none] =
        log_msg_get_value
          (List.getLast
            [fun h => if h = 1 then some "whiskey" else none,
             fun h => if h = 1 then some "tango" else none]
            (by simp)) 1) ∧
    ((1 : Nat) = 0 →
      filter_throttle_derive_key 1
          [fun h => if h = 1 then some "whiskey" else none,
           fun h => if h = 1 then some "tango" else none] = "") ∧
    ((1 : Nat) ≠ 0 →
      (List.getLast
          [fun h => if h = 1 then some "whiskey" else none,
           fun h => if h = 1 then some "tango" else none]
          (by simp) : LogMessage) 1 = none →
      filter_throttle_derive_key 1
          [fun h => if h = 1 then some "whiskey" else none,
           fun h => if h = 1 then some "tango" else none] = "") ∧
    (∀ msgs' : List LogMessage,
      msgs'.getLast? =
        (List.getLast?
          [fun h => if h = 1 then some "whiskey" else none,
           fun h => if h = 1 then some "tango" else none]) →
      filter_throttle_derive_key 1 msgs' =
        filter_throttle_derive_key 1
          [fun h => if h = 1 then some "whiskey" else none,
           fun h => if h = 1 then some "tango" else none]) :=
  derive_key_spec 1
    [fun h => if h = 1 then some "whiskey" else none,
     fun h => if h = 1 then some "tango" else none] (by simp)

/-- C9: an `filter_throttle_eval` call touches only the bucket of the key it
derived: the table entry of every other key, and hence that bucket's tokens,
capacity and `last_check`, is exactly what it was before the call. At most
one bucket per key is inherent in the table being a mapping. -/
theorem eval_key_isolation (self : FilterThrottle) (msgs : List LogMessage)
    (now : Int) (k2 : String)
    (hk : k2 ≠ filter_throttle_derive_key self.key_handle msgs) :
    (filter_throttle_eval self msgs now).2.rate_limits k2 =
      self.rate_limits k2 := by
  unfold filter_throttle_eval
  simp only
  rw [if_neg hk]

/-- Witness for C9: with no key field configured the derived key is the empty
string, and the entry of the distinct key x-ray is untouched by an eval. -/
theorem eval_key_isolation_witness :
    (filter_throttle_eval
        { key_handle := 0, rate := 5, rate_limits := fun _ => none }
        [] 0).2.rate_limits "x-ray" =
      ({ key_handle := 0, rate := 5,
         rate_limits := fun _ => none } : FilterThrottle).rate_limits "x-ray" :=
  eval_key_isolation
    { key_handle := 0, rate := 5, rate_limits := fun _ => none } [] 0 "x-ray"
    (by decide)
